import Mathlib

/-!
A shallow embedding of `src/librustc/middle/traits/error_reporting.rs`:
the trait-obligation diagnostic renderer (deduplication gate, failure
classifier, cause-chain renderer, object-safety reporter and the
on-unimplemented template interpreter), together with theorems about the
properties it is claimed to satisfy.

Machine types that the original code only reads (type terms, regions,
spans, def-ids) are modelled as small inductive types; the mutable parts
of the compiler session (error counts, the emitted-diagnostic sink, the
set of already-reported dedup keys) are threaded explicitly as state.
Messages are modelled structurally: one constructor per emission site of
the source, carrying the data that the source interpolates into the
format string, so that no behaviour hides inside string formatting.
-/

namespace TraitErrorReporting

/-- Source spans, modelled as opaque identifiers. -/
structure Span where
  id : Nat
deriving DecidableEq, Repr

/-- Region (lifetime) parameters: either a named region or the erased one
(the image of `erase_regions`). -/
inductive Region where
  | named : Nat → Region
  | erased : Region
deriving DecidableEq, Repr

/-- Type terms, as far as this module observes them: the error sentinel
`TyError`, inference variables, named base types, type application and
references carrying a region.  Application is binary (curried), which is
enough to represent arbitrary arities. -/
inductive Ty where
  | err : Ty
  | infer : Nat → Ty
  | base : Nat → Ty
  | app : Ty → Ty → Ty
  | ref : Region → Ty → Ty
deriving DecidableEq, Repr

/-- Embeds `resolve_type_vars_if_possible` on a type: replace each inference
variable by its current binding, when one exists.  The infcx invariant is
that stored bindings are themselves resolved. -/
def Ty.resolve (b : Nat → Option Ty) : Ty → Ty
  | .err => .err
  | .infer v =>
    match b v with
    | some t => t
    | none => .infer v
  | .base n => .base n
  | .app f a => .app (f.resolve b) (a.resolve b)
  | .ref r t => .ref r (t.resolve b)

/-- Embeds `erase_regions` on a type: forget every region parameter. -/
def Ty.eraseRegions : Ty → Ty
  | .err => .err
  | .infer v => .infer v
  | .base n => .base n
  | .app f a => .app f.eraseRegions a.eraseRegions
  | .ref _ t => .ref .erased t.eraseRegions

/-- Embeds `references_error`: does the type contain the `TyError` sentinel? -/
def Ty.referencesError : Ty → Bool
  | .err => true
  | .infer _ => false
  | .base _ => false
  | .app f a => f.referencesError || a.referencesError
  | .ref _ t => t.referencesError

/-- Embeds `needs_infer`: does the type still contain an inference variable? -/
def Ty.needsInfer : Ty → Bool
  | .err => false
  | .infer _ => true
  | .base _ => false
  | .app f a => f.needsInfer || a.needsInfer
  | .ref _ t => t.needsInfer

/-- Textual rendering of a type (the `Display` impl used when the source
interpolates a type into a message). -/
def Ty.render : Ty → String
  | .err => "[type error]"
  | .infer v => "_#" ++ toString v
  | .base n => "T" ++ toString n
  | .app f a => f.render ++ "<" ++ a.render ++ ">"
  | .ref r t =>
    match r with
    | .named n => "&r" ++ toString n ++ " " ++ t.render
    | .erased => "& " ++ t.render

/-- A trait reference: the def-id of the trait, the receiver (`Self`) type and
the remaining type arguments (`substs.types` is `selfTy :: args`). -/
structure TraitRef where
  defId : Nat
  selfTy : Ty
  args : List Ty
deriving DecidableEq, Repr

def TraitRef.resolve (b : Nat → Option Ty) (tr : TraitRef) : TraitRef :=
  { tr with selfTy := tr.selfTy.resolve b, args := tr.args.map (Ty.resolve b) }

def TraitRef.eraseRegions (tr : TraitRef) : TraitRef :=
  { tr with selfTy := tr.selfTy.eraseRegions, args := tr.args.map Ty.eraseRegions }

def TraitRef.referencesError (tr : TraitRef) : Bool :=
  tr.selfTy.referencesError || tr.args.any Ty.referencesError

/-- Embeds `trait_ref.substs().types`, with the receiver type in slot 0. -/
def TraitRef.substsTypes (tr : TraitRef) : List Ty :=
  tr.selfTy :: tr.args

def TraitRef.render (tr : TraitRef) : String :=
  "trait#" ++ toString tr.defId ++ "[" ++ String.intercalate ", " (tr.substsTypes.map Ty.render) ++ "]"

/-- Embeds `ty::Predicate`: the shapes of obligation predicates this module
dispatches on. -/
inductive Predicate where
  | trait : TraitRef → Predicate
  | equate : Ty → Ty → Predicate
  | regionOutlives : Region → Region → Predicate
  | typeOutlives : Ty → Region → Predicate
  | projection : Ty → Ty → Predicate
  | wellFormed : Ty → Predicate
  | objectSafe : Nat → Predicate
deriving DecidableEq, Repr

def Predicate.resolve (b : Nat → Option Ty) : Predicate → Predicate
  | .trait tr => .trait (tr.resolve b)
  | .equate t u => .equate (t.resolve b) (u.resolve b)
  | .regionOutlives r s => .regionOutlives r s
  | .typeOutlives t r => .typeOutlives (t.resolve b) r
  | .projection t u => .projection (t.resolve b) (u.resolve b)
  | .wellFormed t => .wellFormed (t.resolve b)
  | .objectSafe d => .objectSafe d

def Predicate.eraseRegions : Predicate → Predicate
  | .trait tr => .trait tr.eraseRegions
  | .equate t u => .equate t.eraseRegions u.eraseRegions
  | .regionOutlives _ _ => .regionOutlives .erased .erased
  | .typeOutlives t _ => .typeOutlives t.eraseRegions .erased
  | .projection t u => .projection t.eraseRegions u.eraseRegions
  | .wellFormed t => .wellFormed t.eraseRegions
  | .objectSafe d => .objectSafe d

def Predicate.referencesError : Predicate → Bool
  | .trait tr => tr.referencesError
  | .equate t u => t.referencesError || u.referencesError
  | .regionOutlives _ _ => false
  | .typeOutlives t _ => t.referencesError
  | .projection t u => t.referencesError || u.referencesError
  | .wellFormed t => t.referencesError
  | .objectSafe _ => false

def Predicate.render : Predicate → String
  | .trait tr => tr.render
  | .equate t u => t.render ++ " == " ++ u.render
  | .regionOutlives r s =>
    (match r with | .named n => "r" ++ toString n | .erased => "re") ++ " : " ++
    (match s with | .named n => "r" ++ toString n | .erased => "re")
  | .typeOutlives t _ => t.render ++ " : region"
  | .projection t u => t.render ++ " == " ++ u.render
  | .wellFormed t => "wf " ++ t.render
  | .objectSafe d => "object-safe trait#" ++ toString d

/-- Embeds `ObligationCauseCode`: the recursive justification for an obligation.
`rfc1214` wraps a subcode; `builtinDerivedObligation` and
`implDerivedObligation` carry a parent trait reference and a parent
cause-code (the composite variants); the rest are leaves. -/
inductive ObligationCauseCode where
  | miscObligation
  | rfc1214 : ObligationCauseCode → ObligationCauseCode
  | sliceOrArrayElem
  | projectionWf : Ty → ObligationCauseCode
  | referenceOutlivesReferent : Ty → ObligationCauseCode
  | itemObligation : Nat → ObligationCauseCode
  | objectCastObligation : Ty → ObligationCauseCode
  | repeatVec
  | variableType : Nat → ObligationCauseCode
  | returnType
  | assignmentLhsSized
  | structInitializerSized
  | closureCapture : Nat → Span → Nat → ObligationCauseCode
  | fieldSized
  | sharedStatic
  | builtinDerivedObligation : TraitRef → ObligationCauseCode → ObligationCauseCode
  | implDerivedObligation : TraitRef → ObligationCauseCode → ObligationCauseCode
  | compareImplMethodObligation
deriving DecidableEq, Repr

/-- Modelled from the spec: `ObligationCauseCode::is_rfc1214` is declared
outside this source file (in the traits module root).  The spec states the
severity rule as: a failure renders as a warning iff its cause-code chain
contains the migration wrapper (RFC1214) anywhere in the chain. -/
def ObligationCauseCode.isRfc1214 : ObligationCauseCode → Bool
  | .rfc1214 _ => true
  | .builtinDerivedObligation _ parent => parent.isRfc1214
  | .implDerivedObligation _ parent => parent.isRfc1214
  | _ => false

structure ObligationCause where
  span : Span
  code : ObligationCauseCode
deriving DecidableEq, Repr

structure Obligation where
  cause : ObligationCause
  predicate : Predicate
deriving DecidableEq, Repr

/-- Embeds `is_warning`. -/
def isWarning (obligation : Obligation) : Bool :=
  obligation.cause.code.isRfc1214

/-- Embeds `ObjectSafetyViolation::Method` sub-codes. -/
inductive MethodViolationCode where
  | staticMethod
  | referencesSelf
  | generic
deriving DecidableEq, Repr

/-- Object-safety violations; methods are identified by name. -/
inductive ObjectSafetyViolation where
  | sizedSelf
  | supertraitSelf
  | method : String → MethodViolationCode → ObjectSafetyViolation
deriving DecidableEq, Repr

structure MismatchedProjectionTypes where
  err : String
deriving DecidableEq, Repr

/-- Embeds `SelectionError`. -/
inductive SelectionError where
  | unimplemented
  | outputTypeParameterMismatch : TraitRef → TraitRef → String → SelectionError
  | traitNotObjectSafe : Nat → SelectionError
deriving DecidableEq, Repr

inductive FulfillmentErrorCode where
  | selectionError : SelectionError → FulfillmentErrorCode
  | projectionError : MismatchedProjectionTypes → FulfillmentErrorCode
  | ambiguity
deriving DecidableEq, Repr

structure FulfillmentError where
  obligation : Obligation
  code : FulfillmentErrorCode
deriving DecidableEq, Repr

/-- The dedup key: `TraitErrorKey`. -/
structure TraitErrorKey where
  isWarning : Bool
  span : Span
  predicate : Predicate
deriving DecidableEq, Repr

/-- Severity of an emitted diagnostic. -/
inductive Severity where
  | error
  | warning
deriving DecidableEq, Repr

/-- The payload of each `span_err!` / `span_err_or_warn!` emission site,
one constructor per error code, carrying the data interpolated there. -/
inductive DiagMsg where
  | e0271 : String → String → DiagMsg
  | e0272 : String → String → DiagMsg
  | e0273 : String → DiagMsg
  | e0274 : String → DiagMsg
  | e0275 : String → DiagMsg
  | e0276 : String → DiagMsg
  | e0277 : String → String → DiagMsg
  | e0278 : String → String → DiagMsg
  | e0279 : String → String → DiagMsg
  | e0280 : String → DiagMsg
  | e0281 : String → String → String → String → DiagMsg
  | e0282 : String → DiagMsg
  | e0283 : String → DiagMsg
  | e0284 : String → DiagMsg
  | e0038 : String → DiagMsg
deriving DecidableEq, Repr

/-- The payload of each `fileline_note` / `note_rfc_1214` emission site. -/
inductive NoteMsg where
  | rfc1214Note
  | sliceOrArrayElem
  | projectionWf : String → NoteMsg
  | referenceOutlivesReferent : String → NoteMsg
  | requiredBy : String → NoteMsg
  | objectCast : String → NoteMsg
  | repeatVec
  | variableType
  | returnType
  | assignmentLhsSized
  | structInitializerSized
  | closureCapture : String → String → NoteMsg
  | fieldSized
  | sharedStatic
  | builtinDerived : String → NoteMsg
  | implDerived : String → String → NoteMsg
  | compareImplMethod : String → NoteMsg
  | onUnimplementedHint : String → NoteMsg
  | cannotRequireSizedSelf
  | supertraitSelf
  | methodNoReceiver : String → NoteMsg
  | methodReferencesSelf : String → NoteMsg
  | methodGeneric : String → NoteMsg
  | recursionLimitSuggestion : Nat → NoteMsg
deriving DecidableEq, Repr

/-- One record in the append-only diagnostic sink. -/
inductive OutputItem where
  | diag : Severity → Span → DiagMsg → OutputItem
  | note : Span → NoteMsg → OutputItem
deriving DecidableEq, Repr

/-- The fatal exits: `span_bug`, `abort_if_errors` firing, and a panic
from `.unwrap()` / `unreachable!()`. -/
inductive Fatal where
  | spanBug : Span → Fatal
  | abort : Fatal
  | panicked : Fatal
deriving DecidableEq, Repr

/-- The mutable compiler session observed here: the error count (behind
`has_errors`), the configured recursion limit, and the diagnostic sink. -/
structure Sess where
  errorCount : Nat
  recursionLimit : Nat
  output : List OutputItem
deriving DecidableEq, Repr

def Sess.hasErrors (s : Sess) : Bool :=
  s.errorCount > 0

def Sess.spanErr (s : Sess) (sp : Span) (m : DiagMsg) : Sess :=
  { s with errorCount := s.errorCount + 1, output := s.output ++ [.diag .error sp m] }

def Sess.spanWarn (s : Sess) (sp : Span) (m : DiagMsg) : Sess :=
  { s with output := s.output ++ [.diag .warning sp m] }

/-- Embeds `span_err_or_warn!`. -/
def Sess.spanErrOrWarn (s : Sess) (isWarning : Bool) (sp : Span) (m : DiagMsg) : Sess :=
  if isWarning then s.spanWarn sp m else s.spanErr sp m

def Sess.filelineNote (s : Sess) (sp : Span) (m : NoteMsg) : Sess :=
  { s with output := s.output ++ [.note sp m] }

/-- Position of a format-string argument piece. -/
inductive Position where
  | argumentNamed : String → Position
  | argumentIs : Nat → Position
  | argumentNext
deriving DecidableEq, Repr

/-- A parsed format-string piece: literal text or a placeholder. -/
inductive Piece where
  | string : String → Piece
  | nextArgument : Position → Piece
deriving DecidableEq, Repr

/-- A `#[rustc_on_unimplemented]`-style attribute: its name, its own span
(`none` models a dummy span, substituted by the failure span), and its
string value, already parsed into format pieces by the external format
parser (`value = none` models an attribute with no value). -/
structure Attr where
  name : String
  span : Option Span
  value : Option (List Piece)
deriving DecidableEq, Repr

/-- The read-only environment: type-variable bindings, trait metadata,
the re-run predicate checks, lang items and name lookups. -/
structure InferCtxt where
  bindings : Nat → Option Ty
  equalityCheck : Span → Ty → Ty → Option String
  regionCheck : Span → Region → Region → Option String
  traitGenericNames : Nat → List String
  traitRefStr : Nat → String
  attrs : Nat → List Attr
  objectSafetyViolationsOf : Nat → List ObjectSafetyViolation
  sizedTraitId : Option Nat
  itemPath : Nat → String
  builtinBoundTrait : Nat → Nat
  localVarName : Nat → String

/-- Embeds `TraitErrorKey::from_error`. -/
def TraitErrorKey.fromError (infcx : InferCtxt) (e : FulfillmentError) : TraitErrorKey :=
  let predicate := e.obligation.predicate.resolve infcx.bindings
  { isWarning := TraitErrorReporting.isWarning e.obligation
    span := e.obligation.cause.span
    predicate := predicate.eraseRegions }

/-- Embeds `note_obligation_cause_code`: renders the cause chain.  `predicate`
is the textual rendering of the predicate handed down by the caller (the
source only uses it via `Display`). -/
def noteObligationCauseCode (infcx : InferCtxt) (predicate : String) (causeSpan : Span) :
    ObligationCauseCode → Sess → Sess
  | .miscObligation, s => s
  | .rfc1214 subcode, s =>
    noteObligationCauseCode infcx predicate causeSpan subcode
      (s.filelineNote causeSpan .rfc1214Note)
  | .sliceOrArrayElem, s => s.filelineNote causeSpan .sliceOrArrayElem
  | .projectionWf data, s => s.filelineNote causeSpan (.projectionWf data.render)
  | .referenceOutlivesReferent refTy, s =>
    s.filelineNote causeSpan (.referenceOutlivesReferent refTy.render)
  | .itemObligation itemDefId, s =>
    s.filelineNote causeSpan (.requiredBy (infcx.itemPath itemDefId))
  | .objectCastObligation objectTy, s =>
    s.filelineNote causeSpan (.objectCast ((objectTy.resolve infcx.bindings).render))
  | .repeatVec, s => s.filelineNote causeSpan .repeatVec
  | .variableType _, s => s.filelineNote causeSpan .variableType
  | .returnType, s => s.filelineNote causeSpan .returnType
  | .assignmentLhsSized, s => s.filelineNote causeSpan .assignmentLhsSized
  | .structInitializerSized, s => s.filelineNote causeSpan .structInitializerSized
  | .closureCapture varId _ builtinBound, s =>
    s.filelineNote causeSpan
      (.closureCapture (infcx.localVarName varId)
        (infcx.itemPath (infcx.builtinBoundTrait builtinBound)))
  | .fieldSized, s => s.filelineNote causeSpan .fieldSized
  | .sharedStatic, s => s.filelineNote causeSpan .sharedStatic
  | .builtinDerivedObligation data parentCode, s =>
    let parentTraitRef := data.resolve infcx.bindings
    let s := s.filelineNote causeSpan (.builtinDerived parentTraitRef.selfTy.render)
    noteObligationCauseCode infcx (Predicate.trait parentTraitRef).render causeSpan parentCode s
  | .implDerivedObligation data parentCode, s =>
    let parentTraitRef := data.resolve infcx.bindings
    let s := s.filelineNote causeSpan
      (.implDerived parentTraitRef.render parentTraitRef.selfTy.render)
    noteObligationCauseCode infcx (Predicate.trait parentTraitRef).render causeSpan parentCode s
  | .compareImplMethodObligation, s =>
    s.filelineNote causeSpan (.compareImplMethod predicate)

/-- Embeds `note_obligation_cause`. -/
def noteObligationCause (infcx : InferCtxt) (obligation : Obligation) (s : Sess) : Sess :=
  noteObligationCauseCode infcx obligation.predicate.render obligation.cause.span
    obligation.cause.code s

/-- The note emitted for one object-safety violation (the body of the
`match violation` in `report_object_safety_error`). -/
def ObjectSafetyViolation.noteMsg : ObjectSafetyViolation → NoteMsg
  | .sizedSelf => .cannotRequireSizedSelf
  | .supertraitSelf => .supertraitSelf
  | .method m .staticMethod => .methodNoReceiver m
  | .method m .referencesSelf => .methodReferencesSelf m
  | .method m .generic => .methodGeneric m

/-- The `for violation in violations` loop of `report_object_safety_error`,
with its `reported_violations` accumulator. -/
def reportViolationsLoop (span : Span) :
    List ObjectSafetyViolation → List ObjectSafetyViolation → Sess → Sess
  | [], _, s => s
  | violation :: rest, reportedViolations, s =>
    if violation ∈ reportedViolations then
      reportViolationsLoop span rest reportedViolations s
    else
      reportViolationsLoop span rest (violation :: reportedViolations)
        (s.filelineNote span violation.noteMsg)

/-- Embeds `report_object_safety_error`. -/
def reportObjectSafetyError (infcx : InferCtxt) (span : Span) (traitDefId : Nat)
    (violations : List ObjectSafetyViolation) (isWarning : Bool) (s : Sess) : Sess :=
  let s := s.spanErrOrWarn isWarning span (.e0038 (infcx.itemPath traitDefId))
  reportViolationsLoop span violations [] s

/-- HashMap-style insert into the binding environment: the new binding
shadows (replaces) any previous binding of the same name. -/
def envInsert (m : List (String × String)) (k v : String) : List (String × String) :=
  (k, v) :: m.filter (fun p => p.1 ≠ k)

/-- The `generic_map` of `report_on_unimplemented`: each declared generic
parameter name of the trait bound to the rendering of the corresponding
argument of `trait_ref`, then a binding of Self to the receiver type. -/
def buildGenericMap (infcx : InferCtxt) (traitRef : TraitRef) : List (String × String) :=
  let m := List.zip (infcx.traitGenericNames traitRef.defId) (traitRef.args.map Ty.render)
  envInsert m "Self" traitRef.selfTy.render

/-- The piece-scanning loop of `report_on_unimplemented` (the source
`parser.filter_map(..).collect()` with its `errored` flag), accumulating
the substituted text and emitting one authoring error per bad piece. -/
def processPieces (traitStr : String) (errSp : Span) (env : List (String × String)) :
    List Piece → Sess → String → Bool → Sess × String × Bool
  | [], s, acc, errored => (s, acc, errored)
  | .string str :: rest, s, acc, errored =>
    processPieces traitStr errSp env rest s (acc ++ str) errored
  | .nextArgument pos :: rest, s, acc, errored =>
    match pos with
    | .argumentNamed name =>
      match env.lookup name with
      | some val => processPieces traitStr errSp env rest s (acc ++ val) errored
      | none =>
        processPieces traitStr errSp env rest
          (s.spanErr errSp (.e0272 traitStr name)) acc true
    | _ =>
      processPieces traitStr errSp env rest
        (s.spanErr errSp (.e0273 traitStr)) acc true

/-- The attribute loop of `report_on_unimplemented`: find the first
attribute named rustc_on_unimplemented (the source breaks after it),
check its value and run the template interpreter. -/
def reportOnUnimplementedAttrs (infcx : InferCtxt) (traitRef : TraitRef) (span : Span) :
    List Attr → Sess → Sess × Option String
  | [], s => (s, none)
  | item :: rest, s =>
    if item.name = "rustc_on_unimplemented" then
      let errSp := item.span.getD span
      let traitStr := infcx.traitRefStr traitRef.defId
      match item.value with
      | some pieces =>
        let genericMap := buildGenericMap infcx traitRef
        let r := processPieces traitStr errSp genericMap pieces s "" false
        if r.2.2 then (r.1, none) else (r.1, some r.2.1)
      | none => (s.spanErr errSp (.e0274 traitStr), none)
    else
      reportOnUnimplementedAttrs infcx traitRef span rest s

/-- Embeds `report_on_unimplemented`. -/
def reportOnUnimplemented (infcx : InferCtxt) (traitRef : TraitRef) (span : Span)
    (s : Sess) : Sess × Option String :=
  reportOnUnimplementedAttrs infcx traitRef span (infcx.attrs traitRef.defId) s

/-- The custom-hint step of the trait-not-implemented branch of
`report_selection_error`: run the template interpreter on the per-trait
attribute and append the hint as a note when it yields output. -/
def onUnimplHintStep (infcx : InferCtxt) (traitRef : TraitRef) (sp : Span) (s : Sess) : Sess :=
  let r := reportOnUnimplemented infcx traitRef sp s
  match r.2 with
  | some n => r.1.filelineNote sp (.onUnimplementedHint n)
  | none => r.1

/-- Embeds `suggest_new_overflow_limit`. -/
def suggestNewOverflowLimit (span : Span) (s : Sess) : Sess :=
  let currentLimit := s.recursionLimit
  let suggestedLimit := currentLimit * 2
  s.filelineNote span (.recursionLimitSuggestion suggestedLimit)

/-- Embeds `report_overflow_error`: diverges in the source (return type is never);
here the unavoidable fatal exit is returned as data. -/
def reportOverflowError (infcx : InferCtxt) (obligation : Obligation) (s : Sess) :
    Sess × Fatal :=
  let predicate := obligation.predicate.resolve infcx.bindings
  let s := s.spanErr obligation.cause.span (.e0275 predicate.render)
  let s := suggestNewOverflowLimit obligation.cause.span s
  let s := noteObligationCause infcx obligation s
  if s.hasErrors then (s, .abort) else (s, .panicked)

/-- Embeds `report_selection_error`. -/
def reportSelectionError (infcx : InferCtxt) (obligation : Obligation)
    (error : SelectionError) (s : Sess) : Sess × Option Fatal :=
  let isw := isWarning obligation
  match error with
  | .unimplemented =>
    if obligation.cause.code = .compareImplMethodObligation then
      (s.spanErrOrWarn isw obligation.cause.span (.e0276 obligation.predicate.render), none)
    else
      match obligation.predicate with
      | .trait traitPredicate =>
        let traitPredicate := traitPredicate.resolve infcx.bindings
        if !s.hasErrors || !traitPredicate.referencesError then
          let traitRef := traitPredicate
          let s := s.spanErrOrWarn isw obligation.cause.span
            (.e0277 traitRef.render traitRef.selfTy.render)
          let s := onUnimplHintStep infcx traitRef obligation.cause.span s
          (noteObligationCause infcx obligation s, none)
        else (s, none)
      | .equate t u =>
        let rt := t.resolve infcx.bindings
        let ru := u.resolve infcx.bindings
        match infcx.equalityCheck obligation.cause.span rt ru with
        | some err =>
          let s := s.spanErrOrWarn isw obligation.cause.span
            (.e0278 ((Predicate.equate rt ru).render) err)
          (noteObligationCause infcx obligation s, none)
        | none => (s, some .panicked)
      | .regionOutlives r1 r2 =>
        match infcx.regionCheck obligation.cause.span r1 r2 with
        | some err =>
          let s := s.spanErrOrWarn isw obligation.cause.span
            (.e0279 ((Predicate.regionOutlives r1 r2).render) err)
          (noteObligationCause infcx obligation s, none)
        | none => (s, some .panicked)
      | .projection t u =>
        let predicate := (Predicate.projection t u).resolve infcx.bindings
        let s := s.spanErrOrWarn isw obligation.cause.span (.e0280 predicate.render)
        (noteObligationCause infcx obligation s, none)
      | .typeOutlives t r =>
        let predicate := (Predicate.typeOutlives t r).resolve infcx.bindings
        let s := s.spanErrOrWarn isw obligation.cause.span (.e0280 predicate.render)
        (noteObligationCause infcx obligation s, none)
      | .objectSafe traitDefId =>
        let violations := infcx.objectSafetyViolationsOf traitDefId
        let s := reportObjectSafetyError infcx obligation.cause.span traitDefId
          violations isw s
        (noteObligationCause infcx obligation s, none)
      | .wellFormed _ => (s, some (.spanBug obligation.cause.span))
  | .outputTypeParameterMismatch expectedTraitRef actualTraitRef e =>
    let expectedTraitRef := expectedTraitRef.resolve infcx.bindings
    let actualTraitRef := actualTraitRef.resolve infcx.bindings
    if !actualTraitRef.selfTy.referencesError then
      let s := s.spanErrOrWarn isw obligation.cause.span
        (.e0281 expectedTraitRef.selfTy.render expectedTraitRef.render
          actualTraitRef.render e)
      (noteObligationCause infcx obligation s, none)
    else (s, none)
  | .traitNotObjectSafe did =>
    let violations := infcx.objectSafetyViolationsOf did
    let s := reportObjectSafetyError infcx obligation.cause.span did violations isw s
    (noteObligationCause infcx obligation s, none)

/-- Embeds `need_type_info`. -/
def needTypeInfo (span : Span) (ty : Ty) (s : Sess) : Sess :=
  s.spanErr span (.e0282 ty.render)

/-- Embeds `maybe_report_ambiguity`. -/
def maybeReportAmbiguity (infcx : InferCtxt) (obligation : Obligation) (s : Sess) :
    Sess × Option Fatal :=
  let predicate := obligation.predicate.resolve infcx.bindings
  match predicate with
  | .trait data =>
    let traitRef := data
    let selfTy := traitRef.selfTy
    let allTypes := traitRef.substsTypes
    if allTypes.any Ty.referencesError then (s, none)
    else if allTypes.any Ty.needsInfer then
      if !s.hasErrors then
        if infcx.sizedTraitId = some traitRef.defId then
          (needTypeInfo obligation.cause.span selfTy s, none)
        else
          let s := s.spanErr obligation.cause.span (.e0283 predicate.render)
          (noteObligationCause infcx obligation s, none)
      else (s, none)
    else if !s.hasErrors then (s, some (.spanBug obligation.cause.span))
    else (s, none)
  | .wellFormed ty =>
    if !ty.referencesError && !s.hasErrors then
      (needTypeInfo obligation.cause.span ty s, none)
    else (s, none)
  | _ =>
    if !s.hasErrors then
      let s := s.spanErr obligation.cause.span (.e0284 predicate.render)
      (noteObligationCause infcx obligation s, none)
    else (s, none)

/-- Embeds `report_projection_error`. -/
def reportProjectionError (infcx : InferCtxt) (obligation : Obligation)
    (error : MismatchedProjectionTypes) (s : Sess) : Sess :=
  let predicate := obligation.predicate.resolve infcx.bindings
  if !s.hasErrors || !predicate.referencesError then
    let s := s.spanErrOrWarn (isWarning obligation) obligation.cause.span
      (.e0271 predicate.render error.err)
    noteObligationCause infcx obligation s
  else s

/-- The mutable state seen by the dedup gate: the compiler session plus
the session-scoped set of already-reported keys
(`infcx.reported_trait_errors`). -/
structure ReportState where
  sess : Sess
  reportedTraitErrors : List TraitErrorKey
deriving DecidableEq, Repr

/-- Embeds `report_fulfillment_error`: the dedup gate followed by the classifier
dispatch. -/
def reportFulfillmentError (infcx : InferCtxt) (error : FulfillmentError)
    (st : ReportState) : ReportState × Option Fatal :=
  let errorKey := TraitErrorKey.fromError infcx error
  if errorKey ∈ st.reportedTraitErrors then (st, none)
  else
    let st1 : ReportState :=
      { st with reportedTraitErrors := errorKey :: st.reportedTraitErrors }
    match error.code with
    | .selectionError e =>
      let r := reportSelectionError infcx error.obligation e st1.sess
      ({ st1 with sess := r.1 }, r.2)
    | .projectionError e =>
      ({ st1 with sess := reportProjectionError infcx error.obligation e st1.sess }, none)
    | .ambiguity =>
      let r := maybeReportAmbiguity infcx error.obligation st1.sess
      ({ st1 with sess := r.1 }, r.2)

/-! ### Specification-side pure functions

Pure companions used to state properties: the list of notes a cause chain
produces, first-occurrence deduplication, the template environment checks
and substitution, and region-insensitive structural equality. -/

/-- The notes `note_obligation_cause_code` emits for a cause code, as a
pure list, in emission order. -/
def causeNoteList (infcx : InferCtxt) (predicate : String) (causeSpan : Span) :
    ObligationCauseCode → List OutputItem
  | .miscObligation => []
  | .rfc1214 subcode =>
    .note causeSpan .rfc1214Note :: causeNoteList infcx predicate causeSpan subcode
  | .sliceOrArrayElem => [.note causeSpan .sliceOrArrayElem]
  | .projectionWf data => [.note causeSpan (.projectionWf data.render)]
  | .referenceOutlivesReferent refTy =>
    [.note causeSpan (.referenceOutlivesReferent refTy.render)]
  | .itemObligation itemDefId => [.note causeSpan (.requiredBy (infcx.itemPath itemDefId))]
  | .objectCastObligation objectTy =>
    [.note causeSpan (.objectCast ((objectTy.resolve infcx.bindings).render))]
  | .repeatVec => [.note causeSpan .repeatVec]
  | .variableType _ => [.note causeSpan .variableType]
  | .returnType => [.note causeSpan .returnType]
  | .assignmentLhsSized => [.note causeSpan .assignmentLhsSized]
  | .structInitializerSized => [.note causeSpan .structInitializerSized]
  | .closureCapture varId _ builtinBound =>
    [.note causeSpan
      (.closureCapture (infcx.localVarName varId)
        (infcx.itemPath (infcx.builtinBoundTrait builtinBound)))]
  | .fieldSized => [.note causeSpan .fieldSized]
  | .sharedStatic => [.note causeSpan .sharedStatic]
  | .builtinDerivedObligation data parentCode =>
    let parentTraitRef := data.resolve infcx.bindings
    .note causeSpan (.builtinDerived parentTraitRef.selfTy.render) ::
      causeNoteList infcx (Predicate.trait parentTraitRef).render causeSpan parentCode
  | .implDerivedObligation data parentCode =>
    let parentTraitRef := data.resolve infcx.bindings
    .note causeSpan (.implDerived parentTraitRef.render parentTraitRef.selfTy.render) ::
      causeNoteList infcx (Predicate.trait parentTraitRef).render causeSpan parentCode
  | .compareImplMethodObligation => [.note causeSpan (.compareImplMethod predicate)]

/-- First-occurrence deduplication: keeps the first copy of each element,
in order, dropping later structural duplicates. -/
def firstDedup {α : Type} [DecidableEq α] : List α → List α
  | [] => []
  | x :: xs => x :: (firstDedup xs).filter (fun y => decide (y ≠ x))

/-- A template piece is well-formed for an environment when it is literal
text or a named placeholder bound in the environment. -/
def pieceOk (env : List (String × String)) : Piece → Bool
  | .string _ => true
  | .nextArgument (.argumentNamed name) => (env.lookup name).isSome
  | .nextArgument _ => false

/-- The text one piece contributes to the rendered hint (offending pieces
contribute nothing). -/
def pieceSubst (env : List (String × String)) : Piece → String
  | .string str => str
  | .nextArgument (.argumentNamed name) => (env.lookup name).getD ""
  | .nextArgument _ => ""

/-- The rendered hint text: literal text with every placeholder replaced
by its bound value. -/
def substAll (env : List (String × String)) : List Piece → String
  | [] => ""
  | p :: rest => pieceSubst env p ++ substAll env rest

/-- The authoring-error diagnostic one piece provokes, if any. -/
def pieceErr (traitStr : String) (errSp : Span) (env : List (String × String)) :
    Piece → Option OutputItem
  | .string _ => none
  | .nextArgument (.argumentNamed name) =>
    match env.lookup name with
    | some _ => none
    | none => some (.diag .error errSp (.e0272 traitStr name))
  | .nextArgument _ => some (.diag .error errSp (.e0273 traitStr))

/-- The severity of an output record when it is one of the primary
diagnostics a failure produces (the per-failure messages E0271, E0276,
E0277, E0278, E0279, E0280, E0281 and E0038); `none` for notes, for the
template authoring errors (E0272, E0273, E0274) and for the ambiguity
messages (E0282, E0283, E0284). -/
def OutputItem.primarySeverity : OutputItem → Option Severity
  | .diag sev _ m =>
    match m with
    | .e0271 _ _ => some sev
    | .e0276 _ => some sev
    | .e0277 _ _ => some sev
    | .e0278 _ _ => some sev
    | .e0279 _ _ => some sev
    | .e0280 _ => some sev
    | .e0281 _ _ _ _ => some sev
    | .e0038 _ => some sev
    | _ => none
  | .note _ _ => none

/-- Structural equality of types up to region parameters. -/
def Ty.sameModuloRegions : Ty → Ty → Bool
  | .err, .err => true
  | .infer a, .infer b => decide (a = b)
  | .base a, .base b => decide (a = b)
  | .app f a, .app g b => f.sameModuloRegions g && a.sameModuloRegions b
  | .ref _ t, .ref _ u => t.sameModuloRegions u
  | _, _ => false

def tysSameModuloRegions : List Ty → List Ty → Bool
  | [], [] => true
  | t :: ts, u :: us => t.sameModuloRegions u && tysSameModuloRegions ts us
  | _, _ => false

def TraitRef.sameModuloRegions (t u : TraitRef) : Bool :=
  decide (t.defId = u.defId) && t.selfTy.sameModuloRegions u.selfTy &&
    tysSameModuloRegions t.args u.args

/-- Structural equality of predicates up to region parameters. -/
def Predicate.sameModuloRegions : Predicate → Predicate → Bool
  | .trait t, .trait u => t.sameModuloRegions u
  | .equate t1 t2, .equate u1 u2 => t1.sameModuloRegions u1 && t2.sameModuloRegions u2
  | .regionOutlives _ _, .regionOutlives _ _ => true
  | .typeOutlives t _, .typeOutlives u _ => t.sameModuloRegions u
  | .projection t1 t2, .projection u1 u2 =>
    t1.sameModuloRegions u1 && t2.sameModuloRegions u2
  | .wellFormed t, .wellFormed u => t.sameModuloRegions u
  | .objectSafe d, .objectSafe e => decide (d = e)
  | _, _ => false

/-- The two composite (derived-obligation) cause-code variants. -/
inductive DerivedKind where
  | builtin
  | viaImpl
deriving DecidableEq, Repr

/-- A cause chain of composite nodes over a leaf. -/
def mkChain : List (DerivedKind × TraitRef) → ObligationCauseCode → ObligationCauseCode
  | [], leaf => leaf
  | (k, tr) :: rest, leaf =>
    match k with
    | .builtin => .builtinDerivedObligation tr (mkChain rest leaf)
    | .viaImpl => .implDerivedObligation tr (mkChain rest leaf)

/-- The single note a composite cause-chain node emits. -/
def derivedNote (infcx : InferCtxt) (causeSpan : Span) :
    DerivedKind × TraitRef → OutputItem
  | (.builtin, tr) =>
    .note causeSpan (.builtinDerived ((tr.resolve infcx.bindings).selfTy.render))
  | (.viaImpl, tr) =>
    let r := tr.resolve infcx.bindings
    .note causeSpan (.implDerived r.render r.selfTy.render)

/-! ### Concrete instances used by closed witnesses and counterexamples -/

def demoInfcx : InferCtxt :=
  { bindings := fun _ => none
    equalityCheck := fun _ _ _ => some "types differ"
    regionCheck := fun _ _ _ => some "regions differ"
    traitGenericNames := fun _ => ["T"]
    traitRefStr := fun _ => "Demo"
    attrs := fun _ => []
    objectSafetyViolationsOf := fun _ => []
    sizedTraitId := none
    itemPath := fun n => "item" ++ toString n
    builtinBoundTrait := fun n => n
    localVarName := fun n => "x" ++ toString n }

def sess0 : Sess := { errorCount := 0, recursionLimit := 64, output := [] }

def sessErr : Sess := { errorCount := 1, recursionLimit := 64, output := [] }

def obTrait : Obligation :=
  { cause := { span := ⟨1⟩, code := .miscObligation }
    predicate := .trait { defId := 1, selfTy := .base 0, args := [] } }

def efTrait : FulfillmentError :=
  { obligation := obTrait, code := .selectionError .unimplemented }

def stSeen : ReportState :=
  { sess := sess0, reportedTraitErrors := [TraitErrorKey.fromError demoInfcx efTrait] }

def st0 : ReportState := { sess := sess0, reportedTraitErrors := [] }

/-- A failure whose resolved trait predicate carries the error sentinel in
an argument position while its receiver type is clean. -/
def obCascade : Obligation :=
  { cause := { span := ⟨2⟩, code := .miscObligation }
    predicate := .trait { defId := 5, selfTy := .base 0, args := [.err] } }

def efCascade : FulfillmentError :=
  { obligation := obCascade, code := .selectionError .unimplemented }

def stErr : ReportState := { sess := sessErr, reportedTraitErrors := [] }

/-- The valid-template fixture for the round-trip witness. -/
def hintPieces : List Piece :=
  [.string "the type ", .nextArgument (.argumentNamed "Self"),
   .string " wants ", .nextArgument (.argumentNamed "T")]

def hintTraitRef : TraitRef := { defId := 7, selfTy := .base 0, args := [.base 1] }

def hintInfcx : InferCtxt :=
  { demoInfcx with
      attrs := fun _ =>
        [{ name := "rustc_on_unimplemented", span := none, value := some hintPieces }] }

/-- The positional-placeholder fixture for the authoring-error witness. -/
def badPieces : List Piece := [.nextArgument .argumentNext]

def badInfcx : InferCtxt :=
  { demoInfcx with
      attrs := fun _ =>
        [{ name := "rustc_on_unimplemented", span := none, value := some badPieces }] }

/-- An ambiguity failure whose cause chain carries the migration wrapper. -/
def obAmbig : Obligation :=
  { cause := { span := ⟨8⟩, code := .rfc1214 .miscObligation }
    predicate := .trait { defId := 3, selfTy := .infer 0, args := [] } }

/-- An equality-predicate failure for the re-check precondition witness. -/
def obEquate : Obligation :=
  { cause := { span := ⟨9⟩, code := .miscObligation }
    predicate := .equate (.base 0) (.base 1) }

/-- Two failures whose predicates differ only in a region parameter. -/
def obRegionA : Obligation :=
  { cause := { span := ⟨4⟩, code := .miscObligation }
    predicate := .trait { defId := 4, selfTy := .ref (.named 0) (.base 1), args := [] } }

def obRegionB : Obligation :=
  { cause := { span := ⟨4⟩, code := .miscObligation }
    predicate := .trait { defId := 4, selfTy := .ref (.named 1) (.base 1), args := [] } }

def efRegionA : FulfillmentError :=
  { obligation := obRegionA, code := .selectionError .unimplemented }

def efRegionB : FulfillmentError :=
  { obligation := obRegionB, code := .selectionError .unimplemented }

/-- A failure arising while comparing an impl method to its trait method. -/
def obCompare : Obligation :=
  { cause := { span := ⟨6⟩, code := .compareImplMethodObligation }
    predicate := .trait { defId := 1, selfTy := .base 0, args := [] } }

/-- The primary diagnostic the comparison failure emits. -/
def e0276Item : OutputItem :=
  .diag .error ⟨6⟩ (.e0276 obCompare.predicate.render)

/-! ### Helper lemmas -/

theorem rfe_skip_of_mem (infcx : InferCtxt) (e : FulfillmentError) (st : ReportState)
    (h : TraitErrorKey.fromError infcx e ∈ st.reportedTraitErrors) :
    reportFulfillmentError infcx e st = (st, none) := by
  simp [reportFulfillmentError, h]

theorem rfe_reported_insert (infcx : InferCtxt) (e : FulfillmentError) (st : ReportState)
    (h : TraitErrorKey.fromError infcx e ∉ st.reportedTraitErrors) :
    (reportFulfillmentError infcx e st).1.reportedTraitErrors
      = TraitErrorKey.fromError infcx e :: st.reportedTraitErrors := by
  unfold reportFulfillmentError
  rw [if_neg h]
  cases e.code <;> rfl

theorem rfe_key_mem (infcx : InferCtxt) (e : FulfillmentError) (st : ReportState) :
    TraitErrorKey.fromError infcx e ∈ (reportFulfillmentError infcx e st).1.reportedTraitErrors := by
  by_cases h : TraitErrorKey.fromError infcx e ∈ st.reportedTraitErrors
  · rw [rfe_skip_of_mem infcx e st h]; exact h
  · rw [rfe_reported_insert infcx e st h]; exact List.mem_cons_self _ _

theorem rfe_reported_mono (infcx : InferCtxt) (e : FulfillmentError) (st : ReportState) :
    ∀ k ∈ st.reportedTraitErrors,
      k ∈ (reportFulfillmentError infcx e st).1.reportedTraitErrors := by
  intro k hk
  by_cases h : TraitErrorKey.fromError infcx e ∈ st.reportedTraitErrors
  · rw [rfe_skip_of_mem infcx e st h]; exact hk
  · rw [rfe_reported_insert infcx e st h]; exact List.mem_cons_of_mem _ hk

/-- The cause-chain renderer only appends its note list to the sink. -/
theorem noteObligationCauseCode_output (infcx : InferCtxt) (causeSpan : Span)
    (code : ObligationCauseCode) :
    ∀ (predicate : String) (s : Sess),
      noteObligationCauseCode infcx predicate causeSpan code s
        = { s with output := s.output ++ causeNoteList infcx predicate causeSpan code } := by
  induction code <;> intro predicate s <;>
    simp [noteObligationCauseCode, causeNoteList, Sess.filelineNote, *]

theorem noteObligationCause_output (infcx : InferCtxt) (obligation : Obligation) (s : Sess) :
    noteObligationCause infcx obligation s
      = { s with
          output := s.output
            ++ causeNoteList infcx obligation.predicate.render obligation.cause.span
                 obligation.cause.code } := by
  simp [noteObligationCause, noteObligationCauseCode_output]

/-! ### C1: deduplication idempotence -/

/-- C1: reporting a failure whose dedup key is already in the per-session
seen-set produces no diagnostic output and does not invoke the classifier
(the state is returned untouched); a fresh key is inserted; and the
seen-set only ever grows. -/
theorem dedup_idempotence (infcx : InferCtxt) (e : FulfillmentError) (st : ReportState) :
    (TraitErrorKey.fromError infcx e ∈ st.reportedTraitErrors →
      reportFulfillmentError infcx e st = (st, none)) ∧
    (TraitErrorKey.fromError infcx e ∉ st.reportedTraitErrors →
      (reportFulfillmentError infcx e st).1.reportedTraitErrors
        = TraitErrorKey.fromError infcx e :: st.reportedTraitErrors) ∧
    (∀ k ∈ st.reportedTraitErrors,
      k ∈ (reportFulfillmentError infcx e st).1.reportedTraitErrors) :=
  ⟨fun h => rfe_skip_of_mem infcx e st h,
   fun h => rfe_reported_insert infcx e st h,
   rfe_reported_mono infcx e st⟩

/-- C1 witness: a concrete already-seen failure is dropped silently. -/
theorem dedup_idempotence_witness :
    reportFulfillmentError demoInfcx efTrait stSeen = (stSeen, none) :=
  (dedup_idempotence demoInfcx efTrait stSeen).1 (List.mem_cons_self _ _)

/-! ### C5: cause-chain rendering depth -/

theorem causeNoteList_mkChain (infcx : InferCtxt) (causeSpan : Span) :
    ∀ (links : List (DerivedKind × TraitRef)) (predicate : String),
      causeNoteList infcx predicate causeSpan (mkChain links .miscObligation)
        = links.map (derivedNote infcx causeSpan) := by
  intro links
  induction links with
  | nil => intro predicate; rfl
  | cons link rest ih =>
    intro predicate
    rcases link with ⟨k, tr⟩
    cases k <;> simp [mkChain, causeNoteList, derivedNote, ih]

/-- C5: a cause chain of composite (builtin-derived / impl-derived) nodes
over the no-note leaf renders exactly one note per composite node, in
outer-to-inner order, visiting each node once; the renderer is a total
function, so it terminates on every finite chain. -/
theorem cause_chain_depth (infcx : InferCtxt) (causeSpan : Span)
    (links : List (DerivedKind × TraitRef)) (predicate : String) (s : Sess) :
    noteObligationCauseCode infcx predicate causeSpan (mkChain links .miscObligation) s
      = { s with output := s.output ++ links.map (derivedNote infcx causeSpan) } ∧
    (links.map (derivedNote infcx causeSpan)).length = links.length := by
  constructor
  · rw [noteObligationCauseCode_output, causeNoteList_mkChain]
  · exact List.length_map _ _

/-! ### C6: overflow is always fatal -/

/-- C6: the overflow reporter, for every session state (prior errors or
not), emits the overflow message, a suggestion naming exactly twice the
configured recursion limit, and the cause chain, and never returns
normally: its result is always the abort signal. -/
theorem overflow_always_fatal (infcx : InferCtxt) (obligation : Obligation) (s : Sess) :
    reportOverflowError infcx obligation s
      = ({ s with
            errorCount := s.errorCount + 1
            output := s.output
              ++ .diag .error obligation.cause.span
                   (.e0275 ((obligation.predicate.resolve infcx.bindings).render))
                :: .note obligation.cause.span
                     (.recursionLimitSuggestion (s.recursionLimit * 2))
                :: causeNoteList infcx obligation.predicate.render obligation.cause.span
                     obligation.cause.code },
         .abort) := by
  simp [reportOverflowError, suggestNewOverflowLimit, Sess.spanErr, Sess.filelineNote,
    noteObligationCause_output, Sess.hasErrors]

/-! ### C7: object-safety violation deduplication -/

theorem filter_swap {α : Type} (p q : α → Bool) (l : List α) :
    (l.filter p).filter q = (l.filter q).filter p := by
  induction l with
  | nil => rfl
  | cons y ys ih => cases hp : p y <;> cases hq : q y <;> simp [hp, hq, ih]

theorem filter_idem {α : Type} (p : α → Bool) (l : List α) :
    (l.filter p).filter p = l.filter p := by
  induction l with
  | nil => rfl
  | cons y ys ih => cases hp : p y <;> simp [hp, ih]

theorem filter_notMem_cons {α : Type} [DecidableEq α] (x : α) (seen l : List α) :
    l.filter (fun v => decide (v ∉ x :: seen))
      = (l.filter (fun v => decide (v ∉ seen))).filter (fun v => decide (v ≠ x)) := by
  induction l with
  | nil => rfl
  | cons y ys ih =>
    by_cases hx : y = x <;> by_cases hs : y ∈ seen <;>
      simp [List.mem_cons, hx, hs, ih]

theorem firstDedup_filter_ne {α : Type} [DecidableEq α] (x : α) (l : List α) :
    firstDedup (l.filter (fun y => decide (y ≠ x)))
      = (firstDedup l).filter (fun y => decide (y ≠ x)) := by
  induction l with
  | nil => rfl
  | cons y ys ih =>
    simp only [ne_eq, decide_not] at ih ⊢
    by_cases hyx : y = x
    · subst hyx
      simp [firstDedup, ih, filter_idem, decide_not]
    · have h1 : (!decide (y = x)) = true := by simp [hyx]
      simp only [List.filter_cons, h1, if_pos, firstDedup, ih, ne_eq, decide_not]
      rw [filter_swap]

theorem firstDedup_filter_cons {α : Type} [DecidableEq α] (x : α) (seen l : List α) :
    firstDedup (l.filter (fun v => decide (v ∉ x :: seen)))
      = (firstDedup (l.filter (fun v => decide (v ∉ seen)))).filter
          (fun v => decide (v ≠ x)) := by
  rw [filter_notMem_cons, firstDedup_filter_ne]

theorem firstDedup_nodup {α : Type} [DecidableEq α] (l : List α) :
    (firstDedup l).Nodup := by
  induction l with
  | nil => exact List.nodup_nil
  | cons x xs ih =>
    refine List.nodup_cons.mpr ⟨?_, ih.filter _⟩
    intro hmem
    have := (List.mem_filter.mp hmem).2
    simp at this

theorem mem_firstDedup {α : Type} [DecidableEq α] (v : α) (l : List α) :
    v ∈ firstDedup l ↔ v ∈ l := by
  induction l with
  | nil => simp [firstDedup]
  | cons x xs ih =>
    by_cases hvx : v = x <;> simp [firstDedup, List.mem_filter, ih, hvx]

/-- The violation loop appends one note per first occurrence of a
violation not already in the accumulator. -/
theorem reportViolationsLoop_spec (span : Span) :
    ∀ (l seen : List ObjectSafetyViolation) (s : Sess),
      reportViolationsLoop span l seen s
        = { s with
            output := s.output
              ++ (firstDedup (l.filter (fun v => decide (v ∉ seen)))).map
                   (fun v => OutputItem.note span v.noteMsg) } := by
  intro l
  induction l with
  | nil => intro seen s; simp [reportViolationsLoop, firstDedup]
  | cons v rest ih =>
    intro seen s
    by_cases h : v ∈ seen
    · simp [reportViolationsLoop, h, ih]
    · have hfilter : ((v :: rest).filter (fun u => decide (u ∉ seen)))
          = v :: rest.filter (fun u => decide (u ∉ seen)) := by simp [h]
      rw [hfilter]
      simp only [reportViolationsLoop, if_neg h]
      rw [ih, firstDedup_filter_cons]
      simp [Sess.filelineNote, firstDedup, List.append_assoc]

/-- Embeds `report_object_safety_error` in closed form: the primary message then
one note per structurally-distinct violation, in first-occurrence order. -/
theorem reportObjectSafetyError_spec (infcx : InferCtxt) (span : Span) (traitDefId : Nat)
    (violations : List ObjectSafetyViolation) (isw : Bool) (s : Sess) :
    reportObjectSafetyError infcx span traitDefId violations isw s
      = { s with
          errorCount := if isw then s.errorCount else s.errorCount + 1
          output := s.output
            ++ OutputItem.diag (if isw then .warning else .error) span
                 (.e0038 (infcx.itemPath traitDefId))
              :: (firstDedup violations).map (fun v => OutputItem.note span v.noteMsg) } := by
  have hfilter : violations.filter (fun v => decide (v ∉ ([] : List ObjectSafetyViolation)))
      = violations := by simp
  cases isw <;>
    simp [reportObjectSafetyError, Sess.spanErrOrWarn, Sess.spanErr, Sess.spanWarn,
      reportViolationsLoop_spec, hfilter, List.append_assoc]

/-- C7: the object-safety reporter emits exactly one primary message
followed by exactly one note per structurally-distinct violation (later
structural duplicates add nothing), each note a pure function
(`ObjectSafetyViolation.noteMsg`) of the violation, interpolating the
method name for method violations. -/
theorem object_safety_dedup (infcx : InferCtxt) (span : Span) (traitDefId : Nat)
    (violations : List ObjectSafetyViolation) (isw : Bool) (s : Sess) :
    (reportObjectSafetyError infcx span traitDefId violations isw s).output
      = s.output
        ++ OutputItem.diag (if isw then .warning else .error) span
             (.e0038 (infcx.itemPath traitDefId))
          :: (firstDedup violations).map (fun v => OutputItem.note span v.noteMsg) ∧
    (firstDedup violations).Nodup ∧
    (∀ v, v ∈ firstDedup violations ↔ v ∈ violations) := by
  refine ⟨?_, firstDedup_nodup violations, fun v => mem_firstDedup v violations⟩
  rw [reportObjectSafetyError_spec]

/-! ### C3 and C4: the template interpreter -/

/-- When every piece is literal or a bound named placeholder, the scan
emits nothing, flags no error, and returns the fully substituted text. -/
theorem processPieces_ok (traitStr : String) (errSp : Span) (env : List (String × String)) :
    ∀ (pieces : List Piece), (∀ p ∈ pieces, pieceOk env p = true) →
      ∀ (s : Sess) (acc : String) (errored : Bool),
        processPieces traitStr errSp env pieces s acc errored
          = (s, acc ++ substAll env pieces, errored) := by
  intro pieces
  induction pieces with
  | nil => intro _ s acc errored; simp [processPieces, substAll]
  | cons p rest ih =>
    intro hok s acc errored
    have hp := hok p (List.mem_cons_self _ _)
    have hrest : ∀ q ∈ rest, pieceOk env q = true :=
      fun q hq => hok q (List.mem_cons_of_mem _ hq)
    cases p with
    | string str =>
      simp [processPieces, substAll, pieceSubst, ih hrest, String.append_assoc]
    | nextArgument pos =>
      cases pos with
      | argumentNamed name =>
        cases hval : List.lookup name env with
        | none => simp [pieceOk, hval] at hp
        | some val =>
          simp [processPieces, hval, substAll, pieceSubst, ih hrest, String.append_assoc]
      | argumentIs n => simp [pieceOk] at hp
      | argumentNext => simp [pieceOk] at hp

/-- The scan in closed form: it emits one authoring error per offending
piece (in template order), scans to the end, accumulates the substituted
text, and its error flag records whether any piece offended. -/
theorem processPieces_spec (traitStr : String) (errSp : Span) (env : List (String × String)) :
    ∀ (pieces : List Piece) (s : Sess) (acc : String) (errored : Bool),
      processPieces traitStr errSp env pieces s acc errored
        = ({ s with
              errorCount := s.errorCount
                + (pieces.filterMap (pieceErr traitStr errSp env)).length
              output := s.output ++ pieces.filterMap (pieceErr traitStr errSp env) },
           acc ++ substAll env pieces,
           errored || pieces.any (fun p => !pieceOk env p)) := by
  intro pieces
  induction pieces with
  | nil => intro s acc errored; simp [processPieces, substAll]
  | cons p rest ih =>
    intro s acc errored
    cases p with
    | string str =>
      simp [processPieces, substAll, pieceSubst, pieceErr, pieceOk, ih,
        String.append_assoc]
    | nextArgument pos =>
      cases pos with
      | argumentNamed name =>
        cases hval : env.lookup name with
        | some val =>
          simp [processPieces, hval, substAll, pieceSubst, pieceErr, pieceOk, ih,
            String.append_assoc]
        | none =>
          simp [processPieces, hval, substAll, pieceSubst, pieceErr, pieceOk, ih,
            Sess.spanErr, List.append_assoc, Nat.add_comm, Nat.add_left_comm,
            Nat.add_assoc]
      | argumentIs n =>
        simp [processPieces, substAll, pieceSubst, pieceErr, pieceOk, ih,
          Sess.spanErr, List.append_assoc, Nat.add_comm, Nat.add_left_comm,
          Nat.add_assoc]
      | argumentNext =>
        simp [processPieces, substAll, pieceSubst, pieceErr, pieceOk, ih,
          Sess.spanErr, List.append_assoc, Nat.add_comm, Nat.add_left_comm,
          Nat.add_assoc]

theorem length_filterMap_pieceErr (traitStr : String) (errSp : Span)
    (env : List (String × String)) (pieces : List Piece) :
    (pieces.filterMap (pieceErr traitStr errSp env)).length
      = pieces.countP (fun p => !pieceOk env p) := by
  induction pieces with
  | nil => rfl
  | cons p rest ih =>
    cases p with
    | string str => simp [pieceErr, pieceOk, ih, List.countP_cons]
    | nextArgument pos =>
      cases pos with
      | argumentNamed name =>
        cases hval : env.lookup name <;>
          simp [pieceErr, pieceOk, hval, ih, List.countP_cons]
      | argumentIs n => simp [pieceErr, pieceOk, ih, List.countP_cons]
      | argumentNext => simp [pieceErr, pieceOk, ih, List.countP_cons]

/-- C3: for a template whose placeholders are all named and all bound in
the binding environment (the generic parameter names of the trait mapped to the
trait-reference arguments plus Self mapped to the receiver type), the hint
renderer returns the literal text with every placeholder replaced by its
bound value, and reports zero authoring errors (the session is untouched). -/
theorem template_round_trip (infcx : InferCtxt) (traitRef : TraitRef) (span : Span)
    (attrSpan : Option Span) (pieces : List Piece) (s : Sess)
    (hattrs : infcx.attrs traitRef.defId
      = [{ name := "rustc_on_unimplemented", span := attrSpan, value := some pieces }])
    (hok : ∀ p ∈ pieces, pieceOk (buildGenericMap infcx traitRef) p = true) :
    reportOnUnimplemented infcx traitRef span s
      = (s, some (substAll (buildGenericMap infcx traitRef) pieces)) := by
  unfold reportOnUnimplemented
  rw [hattrs]
  simp [reportOnUnimplementedAttrs, processPieces_ok _ _ _ pieces hok]

/-- C3 witness: the concrete two-placeholder template fixture renders. -/
theorem template_round_trip_witness :
    reportOnUnimplemented hintInfcx hintTraitRef ⟨0⟩ sess0
      = (sess0, some (substAll (buildGenericMap hintInfcx hintTraitRef) hintPieces)) :=
  template_round_trip hintInfcx hintTraitRef ⟨0⟩ none hintPieces sess0 rfl (by decide)

/-- C4: a template containing a named placeholder absent from the binding
environment or a positional placeholder yields no output, and the renderer
emits one authoring error per offending placeholder, scanning past each
error so all offenders in the template are reported. -/
theorem template_authoring_errors (infcx : InferCtxt) (traitRef : TraitRef) (span : Span)
    (attrSpan : Option Span) (pieces : List Piece) (s : Sess)
    (hattrs : infcx.attrs traitRef.defId
      = [{ name := "rustc_on_unimplemented", span := attrSpan, value := some pieces }])
    (hbad : ∃ p ∈ pieces, pieceOk (buildGenericMap infcx traitRef) p = false) :
    (reportOnUnimplemented infcx traitRef span s).2 = none ∧
    (reportOnUnimplemented infcx traitRef span s).1.output
      = s.output ++ pieces.filterMap
          (pieceErr (infcx.traitRefStr traitRef.defId) (attrSpan.getD span)
            (buildGenericMap infcx traitRef)) ∧
    (pieces.filterMap
        (pieceErr (infcx.traitRefStr traitRef.defId) (attrSpan.getD span)
          (buildGenericMap infcx traitRef))).length
      = pieces.countP (fun p => !pieceOk (buildGenericMap infcx traitRef) p) := by
  have hany : pieces.any (fun p => !pieceOk (buildGenericMap infcx traitRef) p) = true := by
    rw [List.any_eq_true]
    rcases hbad with ⟨p, hmem, hbadp⟩
    exact ⟨p, hmem, by simp [hbadp]⟩
  refine ⟨?_, ?_, length_filterMap_pieceErr _ _ _ _⟩ <;>
  · unfold reportOnUnimplemented
    rw [hattrs]
    simp [reportOnUnimplementedAttrs, processPieces_spec, hany]

/-- C4 witness: the positional template fixture produces no output and
one authoring error. -/
theorem template_authoring_errors_witness :
    (reportOnUnimplemented badInfcx hintTraitRef ⟨0⟩ sess0).2 = none ∧
    (reportOnUnimplemented badInfcx hintTraitRef ⟨0⟩ sess0).1.output
      = sess0.output ++ badPieces.filterMap
          (pieceErr (badInfcx.traitRefStr hintTraitRef.defId) ((none : Option Span).getD ⟨0⟩)
            (buildGenericMap badInfcx hintTraitRef)) ∧
    (badPieces.filterMap
        (pieceErr (badInfcx.traitRefStr hintTraitRef.defId) ((none : Option Span).getD ⟨0⟩)
          (buildGenericMap badInfcx hintTraitRef))).length
      = badPieces.countP (fun p => !pieceOk (buildGenericMap badInfcx hintTraitRef) p) :=
  template_authoring_errors badInfcx hintTraitRef ⟨0⟩ none badPieces sess0 rfl
    ⟨.nextArgument .argumentNext, by decide, by decide⟩

/-! ### C9: region-independence of the dedup key -/

theorem ty_erase_eq_of_same (t : Ty) :
    ∀ u : Ty, Ty.sameModuloRegions t u = true → t.eraseRegions = u.eraseRegions := by
  induction t with
  | err => intro u h; cases u <;> simp_all [Ty.sameModuloRegions]
  | infer a => intro u h; cases u <;> simp_all [Ty.sameModuloRegions, Ty.eraseRegions]
  | base n => intro u h; cases u <;> simp_all [Ty.sameModuloRegions, Ty.eraseRegions]
  | app f a ihf iha =>
    intro u h
    cases u <;> simp_all [Ty.sameModuloRegions, Ty.eraseRegions] <;>
      exact ⟨ihf _ h.1, iha _ h.2⟩
  | ref r t iht =>
    intro u h
    cases u <;> simp_all [Ty.sameModuloRegions, Ty.eraseRegions] <;>
      exact iht _ h

theorem tysSame_erase :
    ∀ (ts us : List Ty), tysSameModuloRegions ts us = true →
      ts.map Ty.eraseRegions = us.map Ty.eraseRegions := by
  intro ts
  induction ts with
  | nil => intro us h; cases us <;> simp_all [tysSameModuloRegions]
  | cons t ts ih =>
    intro us h
    cases us with
    | nil => simp [tysSameModuloRegions] at h
    | cons u us =>
      simp only [tysSameModuloRegions, Bool.and_eq_true] at h
      simp [ty_erase_eq_of_same t u h.1, ih us h.2]

theorem traitRef_erase_eq_of_same (t u : TraitRef)
    (h : TraitRef.sameModuloRegions t u = true) :
    t.eraseRegions = u.eraseRegions := by
  rcases t with ⟨d1, s1, a1⟩
  rcases u with ⟨d2, s2, a2⟩
  simp only [TraitRef.sameModuloRegions, Bool.and_eq_true, decide_eq_true_eq] at h
  simp [TraitRef.eraseRegions, h.1.1, ty_erase_eq_of_same _ _ h.1.2,
    tysSame_erase _ _ h.2]

theorem predicate_erase_eq_of_same (p q : Predicate)
    (h : Predicate.sameModuloRegions p q = true) :
    p.eraseRegions = q.eraseRegions := by
  cases p <;> cases q <;>
    simp_all [Predicate.sameModuloRegions, Predicate.eraseRegions] <;>
    first
      | exact traitRef_erase_eq_of_same _ _ h
      | exact ⟨ty_erase_eq_of_same _ _ h.1, ty_erase_eq_of_same _ _ h.2⟩
      | exact ty_erase_eq_of_same _ _ h

/-- C9: two failures whose predicates, after resolving type variables,
are structurally equal up to region parameters (in particular: differ only
in regions, or only in variable bindings that resolve to the same concrete
predicate) and that share span and severity flag get identical dedup keys,
so after the first is admitted the second is silently dropped. -/
theorem key_region_independence (infcx1 infcx2 : InferCtxt) (e1 e2 : FulfillmentError)
    (st : ReportState)
    (hspan : e1.obligation.cause.span = e2.obligation.cause.span)
    (hwarn : isWarning e1.obligation = isWarning e2.obligation)
    (hpred : Predicate.sameModuloRegions (e1.obligation.predicate.resolve infcx1.bindings)
        (e2.obligation.predicate.resolve infcx2.bindings) = true) :
    TraitErrorKey.fromError infcx1 e1 = TraitErrorKey.fromError infcx2 e2 ∧
    reportFulfillmentError infcx2 e2 (reportFulfillmentError infcx1 e1 st).1
      = ((reportFulfillmentError infcx1 e1 st).1, none) := by
  have herase := predicate_erase_eq_of_same _ _ hpred
  have hkey : TraitErrorKey.fromError infcx1 e1 = TraitErrorKey.fromError infcx2 e2 := by
    simp only [TraitErrorKey.fromError]
    rw [hwarn, hspan, herase]
  refine ⟨hkey, ?_⟩
  apply rfe_skip_of_mem
  rw [← hkey]
  exact rfe_key_mem infcx1 e1 st

/-- C9 witness: two concrete failures differing only in a region
parameter share a key, and the second is dropped. -/
theorem key_region_independence_witness :
    TraitErrorKey.fromError demoInfcx efRegionA = TraitErrorKey.fromError demoInfcx efRegionB ∧
    reportFulfillmentError demoInfcx efRegionB
        (reportFulfillmentError demoInfcx efRegionA st0).1
      = ((reportFulfillmentError demoInfcx efRegionA st0).1, none) :=
  key_region_independence demoInfcx demoInfcx efRegionA efRegionB st0 rfl rfl (by decide)

/-! ### C10: the render-time re-check precondition -/

/-- C10: for an equality or region-outlives predicate reaching the
selection-failure renderer, the renderer re-runs the predicate check and
unwraps its error value; it completes without panicking exactly when that
re-check indeed fails (returns an error). -/
theorem recheck_unwrap_precondition (infcx : InferCtxt) (obligation : Obligation) (s : Sess) :
    (∀ t u, obligation.predicate = .equate t u →
      obligation.cause.code ≠ .compareImplMethodObligation →
      ((reportSelectionError infcx obligation .unimplemented s).2 = none ↔
        (infcx.equalityCheck obligation.cause.span (t.resolve infcx.bindings)
            (u.resolve infcx.bindings)).isSome = true)) ∧
    (∀ r1 r2, obligation.predicate = .regionOutlives r1 r2 →
      obligation.cause.code ≠ .compareImplMethodObligation →
      ((reportSelectionError infcx obligation .unimplemented s).2 = none ↔
        (infcx.regionCheck obligation.cause.span r1 r2).isSome = true)) := by
  constructor
  · intro t u hpred hcode
    cases hchk : infcx.equalityCheck obligation.cause.span (t.resolve infcx.bindings)
        (u.resolve infcx.bindings) <;>
      simp [reportSelectionError, hpred, hcode, hchk]
  · intro r1 r2 hpred hcode
    cases hchk : infcx.regionCheck obligation.cause.span r1 r2 <;>
      simp [reportSelectionError, hpred, hcode, hchk]

/-- C10 witness: with a re-check that fails, the renderer returns
normally on a concrete equality failure. -/
theorem recheck_unwrap_precondition_witness :
    (reportSelectionError demoInfcx obEquate .unimplemented sess0).2 = none :=
  ((recheck_unwrap_precondition demoInfcx obEquate sess0).1 (.base 0) (.base 1) rfl
    (by decide)).mpr (by decide)

/-! ### C2: suppression under cascade -/

theorem spanErrOrWarn_output (s : Sess) (isw : Bool) (sp : Span) (m : DiagMsg) :
    (s.spanErrOrWarn isw sp m).output
      = s.output ++ [.diag (if isw then .warning else .error) sp m] := by
  cases isw <;> simp [Sess.spanErrOrWarn, Sess.spanErr, Sess.spanWarn]

theorem reportOnUnimplementedAttrs_output_ex (infcx : InferCtxt) (tr : TraitRef) (sp : Span) :
    ∀ (attrs : List Attr) (s : Sess),
      ∃ t, (reportOnUnimplementedAttrs infcx tr sp attrs s).1.output = s.output ++ t := by
  intro attrs
  induction attrs with
  | nil => intro s; exact ⟨[], by simp [reportOnUnimplementedAttrs]⟩
  | cons item rest ih =>
    intro s
    by_cases hname : item.name = "rustc_on_unimplemented"
    · cases hval : item.value with
      | some pieces =>
        refine ⟨pieces.filterMap
          (pieceErr (infcx.traitRefStr tr.defId) (item.span.getD sp)
            (buildGenericMap infcx tr)), ?_⟩
        simp only [reportOnUnimplementedAttrs, if_pos hname, hval, processPieces_spec]
        split <;> rfl
      | none =>
        refine ⟨[.diag .error (item.span.getD sp) (.e0274 (infcx.traitRefStr tr.defId))], ?_⟩
        simp only [reportOnUnimplementedAttrs, if_pos hname, hval]
        simp [Sess.spanErr]
    · obtain ⟨t, ht⟩ := ih s
      refine ⟨t, ?_⟩
      simp only [reportOnUnimplementedAttrs, if_neg hname]
      exact ht

theorem onUnimplHintStep_output_ex (infcx : InferCtxt) (tr : TraitRef) (sp : Span) (s : Sess) :
    ∃ t, (onUnimplHintStep infcx tr sp s).output = s.output ++ t := by
  obtain ⟨t, ht⟩ := reportOnUnimplementedAttrs_output_ex infcx tr sp (infcx.attrs tr.defId) s
  simp only [onUnimplHintStep, reportOnUnimplemented]
  cases h2 : (reportOnUnimplementedAttrs infcx tr sp (infcx.attrs tr.defId) s).2 with
  | none => exact ⟨t, ht⟩
  | some n =>
    exact ⟨t ++ [.note sp (.onUnimplementedHint n)], by
      simp [Sess.filelineNote, ht, List.append_assoc]⟩

theorem onUnimplHintStep_len (infcx : InferCtxt) (tr : TraitRef) (sp : Span) (s : Sess) :
    s.output.length ≤ (onUnimplHintStep infcx tr sp s).output.length := by
  obtain ⟨t, ht⟩ := onUnimplHintStep_output_ex infcx tr sp s
  simp [ht]

theorem noteObligationCause_len (infcx : InferCtxt) (obligation : Obligation) (s : Sess) :
    s.output.length ≤ (noteObligationCause infcx obligation s).output.length := by
  rw [noteObligationCause_output]; simp

/-- The suppressed branch of the trait-not-implemented case: a prior
error together with an error placeholder anywhere in the resolved
predicate yields no output at all. -/
theorem rse_trait_suppressed (infcx : InferCtxt) (obligation : Obligation)
    (tr : TraitRef) (s : Sess)
    (hnotcmp : obligation.cause.code ≠ .compareImplMethodObligation)
    (hpred : obligation.predicate = .trait tr)
    (hcondF : (!s.hasErrors || !(tr.resolve infcx.bindings).referencesError) = false) :
    reportSelectionError infcx obligation .unimplemented s = (s, none) := by
  simp [reportSelectionError, hnotcmp, hpred, hcondF]

/-- The emitting branch of the trait-not-implemented case. -/
theorem rse_trait_emit (infcx : InferCtxt) (obligation : Obligation)
    (tr : TraitRef) (s : Sess)
    (hnotcmp : obligation.cause.code ≠ .compareImplMethodObligation)
    (hpred : obligation.predicate = .trait tr)
    (hcondT : (!s.hasErrors || !(tr.resolve infcx.bindings).referencesError) = true) :
    reportSelectionError infcx obligation .unimplemented s
      = (noteObligationCause infcx obligation
          (onUnimplHintStep infcx (tr.resolve infcx.bindings) obligation.cause.span
            (s.spanErrOrWarn (isWarning obligation) obligation.cause.span
              (.e0277 (tr.resolve infcx.bindings).render
                (tr.resolve infcx.bindings).selfTy.render))), none) := by
  simp [reportSelectionError, hnotcmp, hpred, hcondT]

/-- C2 counterexample: with a prior error recorded, a trait-implemented
failure whose receiver type is clean but whose predicate carries an error
placeholder in an argument position is still suppressed entirely, so
suppression is not characterised by the self type alone. -/
theorem suppression_selfty_counterexample :
    (reportSelectionError demoInfcx obCascade .unimplemented sessErr).1.output
        = sessErr.output ∧
    ((TraitRef.mk 5 (.base 0) [.err]).resolve demoInfcx.bindings).selfTy.referencesError
        = false ∧
    sessErr.hasErrors = true := by
  refine ⟨?_, by decide, by decide⟩
  decide

/-- C2 (amended): for a general trait-implemented selection failure, the
primary message and its notes are suppressed exactly when a prior
compilation error exists and the resolved predicate contains an error
placeholder anywhere in its types (not only in the self type); even when
suppressed, the dedup key of the failure is still inserted into the seen-set. -/
theorem suppression_under_cascade (infcx : InferCtxt) (st : ReportState)
    (e : FulfillmentError) (tr : TraitRef)
    (hcode : e.code = .selectionError .unimplemented)
    (hnotcmp : e.obligation.cause.code ≠ .compareImplMethodObligation)
    (hpred : e.obligation.predicate = .trait tr)
    (hfresh : TraitErrorKey.fromError infcx e ∉ st.reportedTraitErrors) :
    (reportFulfillmentError infcx e st).1.reportedTraitErrors
      = TraitErrorKey.fromError infcx e :: st.reportedTraitErrors ∧
    (st.sess.hasErrors = true → (tr.resolve infcx.bindings).referencesError = true →
      (reportFulfillmentError infcx e st).1.sess = st.sess) ∧
    (¬(st.sess.hasErrors = true ∧ (tr.resolve infcx.bindings).referencesError = true) →
      (reportFulfillmentError infcx e st).1.sess.output ≠ st.sess.output) := by
  have hsess : (reportFulfillmentError infcx e st).1.sess
      = (reportSelectionError infcx e.obligation .unimplemented st.sess).1 := by
    unfold reportFulfillmentError
    rw [if_neg hfresh, hcode]
  refine ⟨rfe_reported_insert infcx e st hfresh, ?_, ?_⟩
  · intro h1 h2
    rw [hsess, rse_trait_suppressed infcx e.obligation tr st.sess hnotcmp hpred
      (by simp [h1, h2])]
  · intro hnot
    have hcond : (!st.sess.hasErrors || !(tr.resolve infcx.bindings).referencesError) = true := by
      cases hA : st.sess.hasErrors <;>
        cases hB : (tr.resolve infcx.bindings).referencesError <;> simp_all
    rw [hsess, rse_trait_emit infcx e.obligation tr st.sess hnotcmp hpred hcond]
    intro hEq
    have h1 : ((st.sess.spanErrOrWarn (isWarning e.obligation) e.obligation.cause.span
        (.e0277 (tr.resolve infcx.bindings).render
          (tr.resolve infcx.bindings).selfTy.render))).output.length
        = st.sess.output.length + 1 := by
      rw [spanErrOrWarn_output]; simp
    have h2 := onUnimplHintStep_len infcx (tr.resolve infcx.bindings) e.obligation.cause.span
      (st.sess.spanErrOrWarn (isWarning e.obligation) e.obligation.cause.span
        (.e0277 (tr.resolve infcx.bindings).render
          (tr.resolve infcx.bindings).selfTy.render))
    have h3 := noteObligationCause_len infcx e.obligation
      (onUnimplHintStep infcx (tr.resolve infcx.bindings) e.obligation.cause.span
        (st.sess.spanErrOrWarn (isWarning e.obligation) e.obligation.cause.span
          (.e0277 (tr.resolve infcx.bindings).render
            (tr.resolve infcx.bindings).selfTy.render)))
    have h4 := congrArg List.length hEq
    simp only [Prod.fst] at h4
    omega

/-- C2 witness: a concrete suppressed failure still gets its key
recorded while the sink is untouched. -/
theorem suppression_under_cascade_witness :
    (reportFulfillmentError demoInfcx efCascade stErr).1.reportedTraitErrors
      = TraitErrorKey.fromError demoInfcx efCascade :: stErr.reportedTraitErrors ∧
    (reportFulfillmentError demoInfcx efCascade stErr).1.sess = stErr.sess :=
  let h := suppression_under_cascade demoInfcx stErr efCascade
    (TraitRef.mk 5 (.base 0) [.err]) rfl (by decide) rfl (by decide)
  ⟨h.1, h.2.1 (by decide) (by decide)⟩

/-! ### C8: the severity rule -/

theorem primarySeverity_note (sp : Span) (m : NoteMsg) :
    (OutputItem.note sp m).primarySeverity = none := rfl

theorem causeNoteList_all_isNone (infcx : InferCtxt) (sp : Span) :
    ∀ (code : ObligationCauseCode) (p : String),
      (causeNoteList infcx p sp code).all (fun it => it.primarySeverity.isNone) = true := by
  intro code
  induction code <;> intro p <;>
    simp [causeNoteList, primarySeverity_note, *]

theorem mem_causeNoteList_primary_none (infcx : InferCtxt) (sp : Span)
    (code : ObligationCauseCode) (p : String) (it : OutputItem)
    (h : it ∈ causeNoteList infcx p sp code) : it.primarySeverity = none := by
  have hall := causeNoteList_all_isNone infcx sp code p
  rw [List.all_eq_true] at hall
  have h2 := hall it h
  simpa [Option.isNone_iff_eq_none] using h2

theorem mem_spanErrOrWarn (s : Sess) (isw : Bool) (sp : Span) (m : DiagMsg) (it : OutputItem)
    (h : it ∈ (s.spanErrOrWarn isw sp m).output) :
    it ∈ s.output ∨ it = .diag (if isw then .warning else .error) sp m := by
  rw [spanErrOrWarn_output] at h
  simpa using List.mem_append.mp h

theorem mem_noteObligationCause (infcx : InferCtxt) (obligation : Obligation) (s : Sess)
    (it : OutputItem) (h : it ∈ (noteObligationCause infcx obligation s).output) :
    it ∈ s.output ∨ it.primarySeverity = none := by
  rw [noteObligationCause_output] at h
  rcases List.mem_append.mp h with h1 | h1
  · exact Or.inl h1
  · exact Or.inr (mem_causeNoteList_primary_none _ _ _ _ _ h1)

theorem pieceErr_primary_none (traitStr : String) (errSp : Span)
    (env : List (String × String)) (p : Piece) (it : OutputItem)
    (h : pieceErr traitStr errSp env p = some it) : it.primarySeverity = none := by
  cases p with
  | string str => simp [pieceErr] at h
  | nextArgument pos =>
    cases pos with
    | argumentNamed name =>
      cases hval : List.lookup name env with
      | some val => simp [pieceErr, hval] at h
      | none =>
        simp [pieceErr, hval] at h
        rw [← h]; rfl
    | argumentIs n =>
      simp [pieceErr] at h
      rw [← h]; rfl
    | argumentNext =>
      simp [pieceErr] at h
      rw [← h]; rfl

theorem mem_reportOnUnimplementedAttrs (infcx : InferCtxt) (tr : TraitRef) (sp : Span) :
    ∀ (attrs : List Attr) (s : Sess) (it : OutputItem),
      it ∈ (reportOnUnimplementedAttrs infcx tr sp attrs s).1.output →
        it ∈ s.output ∨ it.primarySeverity = none := by
  intro attrs
  induction attrs with
  | nil => intro s it h; left; simpa [reportOnUnimplementedAttrs] using h
  | cons item rest ih =>
    intro s it h
    by_cases hname : item.name = "rustc_on_unimplemented"
    · cases hval : item.value with
      | some pieces =>
        simp only [reportOnUnimplementedAttrs, if_pos hname, hval, processPieces_spec] at h
        have h2 : it ∈ s.output ++ pieces.filterMap
            (pieceErr (infcx.traitRefStr tr.defId) (item.span.getD sp)
              (buildGenericMap infcx tr)) := by
          split at h <;> exact h
        rcases List.mem_append.mp h2 with h3 | h3
        · exact Or.inl h3
        · rcases List.mem_filterMap.mp h3 with ⟨p, _, hp⟩
          exact Or.inr (pieceErr_primary_none _ _ _ _ _ hp)
      | none =>
        simp only [reportOnUnimplementedAttrs, if_pos hname, hval] at h
        have h2 : it ∈ s.output ∨ it = OutputItem.diag .error (item.span.getD sp)
            (.e0274 (infcx.traitRefStr tr.defId)) := by
          simpa [Sess.spanErr] using h
        rcases h2 with h1 | h1
        · exact Or.inl h1
        · right; rw [h1]; rfl
    · simp only [reportOnUnimplementedAttrs, if_neg hname] at h
      exact ih s it h

theorem mem_onUnimplHintStep (infcx : InferCtxt) (tr : TraitRef) (sp : Span) (s : Sess)
    (it : OutputItem) (h : it ∈ (onUnimplHintStep infcx tr sp s).output) :
    it ∈ s.output ∨ it.primarySeverity = none := by
  simp only [onUnimplHintStep, reportOnUnimplemented] at h
  cases h2 : (reportOnUnimplementedAttrs infcx tr sp (infcx.attrs tr.defId) s).2 with
  | none =>
    rw [h2] at h
    exact mem_reportOnUnimplementedAttrs infcx tr sp _ s it h
  | some n =>
    rw [h2] at h
    have h3 : it ∈ (reportOnUnimplementedAttrs infcx tr sp (infcx.attrs tr.defId) s).1.output
        ∨ it = OutputItem.note sp (.onUnimplementedHint n) := by
      simpa [Sess.filelineNote] using h
    rcases h3 with h1 | h1
    · exact mem_reportOnUnimplementedAttrs infcx tr sp _ s it h1
    · right; rw [h1]; rfl

theorem mem_reportObjectSafetyError (infcx : InferCtxt) (sp : Span) (d : Nat)
    (viols : List ObjectSafetyViolation) (isw : Bool) (s : Sess) (it : OutputItem)
    (h : it ∈ (reportObjectSafetyError infcx sp d viols isw s).output) :
    it ∈ s.output
      ∨ it = .diag (if isw then .warning else .error) sp (.e0038 (infcx.itemPath d))
      ∨ it.primarySeverity = none := by
  rw [reportObjectSafetyError_spec] at h
  rcases List.mem_append.mp h with h1 | h1
  · exact Or.inl h1
  · rcases List.mem_cons.mp h1 with h2 | h2
    · exact Or.inr (Or.inl h2)
    · right; right
      rcases List.mem_map.mp h2 with ⟨v, _, hv⟩
      rw [← hv]; rfl

/-- C8 counterexample: an ambiguity failure whose cause chain carries the
migration wrapper (so the severity rule demands a warning) still renders
its primary message E0283 as an error. -/
theorem severity_rule_counterexample :
    isWarning obAmbig = true ∧
    (maybeReportAmbiguity demoInfcx obAmbig sess0).1.output
      = [.diag .error ⟨8⟩ (.e0283 ((obAmbig.predicate.resolve demoInfcx.bindings).render)),
         .note ⟨8⟩ .rfc1214Note] := by
  exact ⟨rfl, rfl⟩

/-- C8 (amended): the warning-iff-migration-wrapper severity rule holds
for the primary diagnostics of selection failures and projection
failures; the ambiguity-path messages (E0282, E0283, E0284) are emitted
as plain errors regardless of the cause chain. -/
theorem severity_rule_selection_projection (infcx : InferCtxt) (obligation : Obligation)
    (s : Sess) :
    (∀ (error : SelectionError) (it : OutputItem),
      it ∈ (reportSelectionError infcx obligation error s).1.output →
        it ∈ s.output ∨ it.primarySeverity = none ∨
          it.primarySeverity
            = some (if isWarning obligation then .warning else .error)) ∧
    (∀ (error : MismatchedProjectionTypes) (it : OutputItem),
      it ∈ (reportProjectionError infcx obligation error s).output →
        it ∈ s.output ∨ it.primarySeverity = none ∨
          it.primarySeverity
            = some (if isWarning obligation then .warning else .error)) := by
  constructor
  · intro error it h
    cases error with
    | unimplemented =>
      by_cases hcmp : obligation.cause.code = .compareImplMethodObligation
      · simp only [reportSelectionError, if_pos hcmp] at h
        rcases mem_spanErrOrWarn _ _ _ _ _ h with h1 | h1
        · exact Or.inl h1
        · right; right
          rw [h1]
          cases hw : isWarning obligation <;> simp [OutputItem.primarySeverity]
      · cases hpred : obligation.predicate with
        | trait tr =>
          cases hcond : (!s.hasErrors || !(tr.resolve infcx.bindings).referencesError) with
          | false =>
            rw [rse_trait_suppressed infcx obligation tr s hcmp hpred hcond] at h
            exact Or.inl h
          | true =>
            rw [rse_trait_emit infcx obligation tr s hcmp hpred hcond] at h
            rcases mem_noteObligationCause _ _ _ _ h with h1 | h1
            · rcases mem_onUnimplHintStep _ _ _ _ _ h1 with h2 | h2
              · rcases mem_spanErrOrWarn _ _ _ _ _ h2 with h3 | h3
                · exact Or.inl h3
                · right; right
                  rw [h3]
                  cases hw : isWarning obligation <;> simp [OutputItem.primarySeverity]
              · exact Or.inr (Or.inl h2)
            · exact Or.inr (Or.inl h1)
        | equate t u =>
          cases hchk : infcx.equalityCheck obligation.cause.span (t.resolve infcx.bindings)
              (u.resolve infcx.bindings) with
          | none =>
            simp only [reportSelectionError, if_neg hcmp, hpred, hchk] at h
            exact Or.inl h
          | some err =>
            simp only [reportSelectionError, if_neg hcmp, hpred, hchk] at h
            rcases mem_noteObligationCause _ _ _ _ h with h1 | h1
            · rcases mem_spanErrOrWarn _ _ _ _ _ h1 with h3 | h3
              · exact Or.inl h3
              · right; right
                rw [h3]
                cases hw : isWarning obligation <;> simp [OutputItem.primarySeverity]
            · exact Or.inr (Or.inl h1)
        | regionOutlives r1 r2 =>
          cases hchk : infcx.regionCheck obligation.cause.span r1 r2 with
          | none =>
            simp only [reportSelectionError, if_neg hcmp, hpred, hchk] at h
            exact Or.inl h
          | some err =>
            simp only [reportSelectionError, if_neg hcmp, hpred, hchk] at h
            rcases mem_noteObligationCause _ _ _ _ h with h1 | h1
            · rcases mem_spanErrOrWarn _ _ _ _ _ h1 with h3 | h3
              · exact Or.inl h3
              · right; right
                rw [h3]
                cases hw : isWarning obligation <;> simp [OutputItem.primarySeverity]
            · exact Or.inr (Or.inl h1)
        | projection t u =>
          simp only [reportSelectionError, if_neg hcmp, hpred] at h
          rcases mem_noteObligationCause _ _ _ _ h with h1 | h1
          · rcases mem_spanErrOrWarn _ _ _ _ _ h1 with h3 | h3
            · exact Or.inl h3
            · right; right
              rw [h3]
              cases hw : isWarning obligation <;> simp [OutputItem.primarySeverity]
          · exact Or.inr (Or.inl h1)
        | typeOutlives t r =>
          simp only [reportSelectionError, if_neg hcmp, hpred] at h
          rcases mem_noteObligationCause _ _ _ _ h with h1 | h1
          · rcases mem_spanErrOrWarn _ _ _ _ _ h1 with h3 | h3
            · exact Or.inl h3
            · right; right
              rw [h3]
              cases hw : isWarning obligation <;> simp [OutputItem.primarySeverity]
          · exact Or.inr (Or.inl h1)
        | objectSafe d =>
          simp only [reportSelectionError, if_neg hcmp, hpred] at h
          rcases mem_noteObligationCause _ _ _ _ h with h1 | h1
          · rcases mem_reportObjectSafetyError _ _ _ _ _ _ _ h1 with h2 | h2 | h2
            · exact Or.inl h2
            · right; right
              rw [h2]
              cases hw : isWarning obligation <;> simp [OutputItem.primarySeverity]
            · exact Or.inr (Or.inl h2)
          · exact Or.inr (Or.inl h1)
        | wellFormed ty =>
          simp only [reportSelectionError, if_neg hcmp, hpred] at h
          exact Or.inl h
    | outputTypeParameterMismatch expected actual err =>
      cases hc : (actual.resolve infcx.bindings).selfTy.referencesError with
      | true =>
        simp only [reportSelectionError, hc] at h
        simp at h
        exact Or.inl h
      | false =>
        simp only [reportSelectionError, hc] at h
        have h9 : it ∈ (noteObligationCause infcx obligation
            (s.spanErrOrWarn (isWarning obligation) obligation.cause.span
              (.e0281 (expected.resolve infcx.bindings).selfTy.render
                (expected.resolve infcx.bindings).render
                (actual.resolve infcx.bindings).render err))).output := by
          simpa using h
        rcases mem_noteObligationCause _ _ _ _ h9 with h1 | h1
        · rcases mem_spanErrOrWarn _ _ _ _ _ h1 with h3 | h3
          · exact Or.inl h3
          · right; right
            rw [h3]
            cases hw : isWarning obligation <;> simp [OutputItem.primarySeverity]
        · exact Or.inr (Or.inl h1)
    | traitNotObjectSafe did =>
      simp only [reportSelectionError] at h
      rcases mem_noteObligationCause _ _ _ _ h with h1 | h1
      · rcases mem_reportObjectSafetyError _ _ _ _ _ _ _ h1 with h2 | h2 | h2
        · exact Or.inl h2
        · right; right
          rw [h2]
          cases hw : isWarning obligation <;> simp [OutputItem.primarySeverity]
        · exact Or.inr (Or.inl h2)
      · exact Or.inr (Or.inl h1)
  · intro error it h
    cases hcond : (!s.hasErrors
        || !(obligation.predicate.resolve infcx.bindings).referencesError) with
    | false =>
      simp only [reportProjectionError, hcond] at h
      simp at h
      exact Or.inl h
    | true =>
      simp only [reportProjectionError, hcond] at h
      have h9 : it ∈ (noteObligationCause infcx obligation
          (s.spanErrOrWarn (isWarning obligation) obligation.cause.span
            (.e0271 (obligation.predicate.resolve infcx.bindings).render
              error.err))).output := by
        simpa using h
      rcases mem_noteObligationCause _ _ _ _ h9 with h1 | h1
      · rcases mem_spanErrOrWarn _ _ _ _ _ h1 with h3 | h3
        · exact Or.inl h3
        · right; right
          rw [h3]
          cases hw : isWarning obligation <;> simp [OutputItem.primarySeverity]
      · exact Or.inr (Or.inl h1)

/-- C8 witness: the concrete comparison-failure diagnostic respects the
severity rule. -/
theorem severity_rule_selection_projection_witness :
    e0276Item ∈ sess0.output ∨ e0276Item.primarySeverity = none ∨
      e0276Item.primarySeverity
        = some (if isWarning obCompare then .warning else .error) :=
  (severity_rule_selection_projection demoInfcx obCompare sess0).1 .unimplemented e0276Item
    (by decide)

end TraitErrorReporting
